import Mathlib

/- Verification of the PDF splitting utility in
   "Separador de Arquivos e Renomear/app.py".

   The program is embedded shallowly:
   - a PDF document is the list of its pages (type parameter α, one value per page);
   - the Excel sheet is its first column, a list of cells, where a cell is
     an optional string (none models a missing value / NaN);
   - dividir_pdf is a pure function producing the observable trace of a run:
     the files written (filename paired with the page content), the progress
     values reported to the callback, and the outcome;
   - the cancellation flag, polled once per chunk iteration, is a function
     from the poll number (the chunk index) to the flag value at that poll.

   The model is faithful for paginas_por_arquivo > 0; with 0 the Python code
   raises ZeroDivisionError at line 89 before doing anything observable, which
   the outer handler turns into a generic error.  Writes are assumed to
   succeed: no I/O failure is modelled. -/

namespace PDFSplitterModel

/-- Characters removed by sanitize_filename: the regex class at app.py line 59. -/
def invalid_chars : List Char := ['<', '>', ':', '"', '/', '\\', '|', '?', '*']

/-- Whitespace stripped by the Python str.strip call, modelled by the ASCII
whitespace characters Python strips. -/
def py_space (c : Char) : Bool :=
  c == ' ' || c == '\t' || c == '\n' || c == '\r' || c == '\x0b' || c == '\x0c'

/-- Python str.strip: remove leading and trailing whitespace. -/
def py_strip (s : List Char) : List Char :=
  ((s.dropWhile py_space).reverse.dropWhile py_space).reverse

/-- app.py sanitize_filename (lines 48-60): re.sub removes every occurrence of
an invalid character, then strip trims surrounding whitespace. -/
def sanitize_filename (s : String) : String :=
  String.mk (py_strip (s.data.filter (fun c => !(invalid_chars.contains c))))

/-- A cell of the first spreadsheet column: present text, or a missing value. -/
abbrev Cell := Option String

/-- Python str applied to a cell value.  Validation guarantees the loop only
reads present cells; a missing pandas value would render as "nan". -/
def cell_str (c : Cell) : String :=
  match c with
  | some s => s
  | none => "nan"

/-- app.py validate_excel_data (lines 30-46), on the first column: fails when
the sheet is empty or some first-column cell is missing. -/
def validate_excel_data (col : List Cell) : Bool :=
  if col.isEmpty then false
  else if col.any (fun c => c.isNone) then false
  else true

/-- app.py line 89: total_steps, the number of files that will be generated. -/
def total_steps (total_paginas paginas_por_arquivo : Nat) : Nat :=
  total_paginas / paginas_por_arquivo +
    (if total_paginas % paginas_por_arquivo ≠ 0 then 1 else 0)

/-- Python range(0, total, step) for step > 0: the page offsets visited by the
loop at app.py line 98.  It has exactly total_steps elements, the multiples
of step below total. -/
def range_step (total step : Nat) : List Nat :=
  (List.range (total_steps total step)).map (fun k => k * step)

/-- Observable outcome of a dividir_pdf run: which return path was taken. -/
inductive Outcome where
  | success
  | invalidInput
  | insufficientNames (names required : Nat)
  | cancelled
  deriving DecidableEq

/-- Trace of one dividir_pdf run: files written in order (name with its page
content), progress values reported, and the outcome. -/
structure RunTrace (α : Type) where
  files : List (String × List α)
  progress : List ℚ
  result : Outcome
  deriving DecidableEq

/-- The per-chunk loop of dividir_pdf (app.py lines 98-123), over the list of
page offsets still to process.  For offset i the chunk index is i divided by
paginas_por_arquivo; the flag is polled first, then the pages
[i, min(i+ppf, total)) are collected, the filename is resolved from row
i / ppf of the sheet, the file is written, and (i / ppf + 1) / total_steps * 100
is reported. -/
def run_loop {α : Type} (pages : List α) (col : List Cell) (ppf : Nat)
    (cancel : Nat → Bool) (steps : Nat) : List Nat → RunTrace α
  | [] => ⟨[], [], .success⟩
  | i :: rest =>
    if cancel (i / ppf) then ⟨[], [], .cancelled⟩
    else
      ⟨(sanitize_filename (cell_str (col.getD (i / ppf) none)) ++ ".pdf",
          (pages.drop i).take ppf) :: (run_loop pages col ppf cancel steps rest).files,
        (((i / ppf : Nat) : ℚ) + 1) / (steps : ℚ) * 100 ::
          (run_loop pages col ppf cancel steps rest).progress,
        (run_loop pages col ppf cancel steps rest).result⟩

/-- app.py dividir_pdf (lines 62-130): validate the sheet, compute the number
of output files, check there are enough names, then run the chunk loop. -/
def dividir_pdf {α : Type} (pages : List α) (col : List Cell)
    (paginas_por_arquivo : Nat) (cancel : Nat → Bool) : RunTrace α :=
  if validate_excel_data col = false then ⟨[], [], .invalidInput⟩
  else if col.length < total_steps pages.length paginas_por_arquivo then
    ⟨[], [], .insufficientNames col.length (total_steps pages.length paginas_por_arquivo)⟩
  else
    run_loop pages col paginas_por_arquivo cancel
      (total_steps pages.length paginas_por_arquivo)
      (range_step pages.length paginas_por_arquivo)

/-- The boolean dividir_pdf returns on each outcome path. -/
def returned_bool : Outcome → Bool
  | .success => true
  | _ => false

/-- app.py iniciar_divisao final message (lines 276-279): info box on success,
error box when the cancel flag is not set, nothing when it is. -/
def final_message (success cancel_flag : Bool) : Option String :=
  if success then some "Processo concluído com sucesso!"
  else if !cancel_flag then some "Ocorreu um erro durante o processamento."
  else none

/-- Python str.isdigit on ASCII input: nonempty and all characters digits.
This is the whole check validar_campos applies to the pages-per-file field
(app.py line 256). -/
def validar_paginas_field (s : String) : Bool :=
  !s.data.isEmpty && s.data.all (fun c => c.isDigit)

/-- Python int on a digit string (app.py line 271). -/
def py_int (s : String) : Nat :=
  s.data.foldl (fun acc c => acc * 10 + (c.toNat - 48)) 0

/-- Modelled from the spec (section 4.1 item 3): required chunk count is the
ceiling of totalPages / pagesPerFile, written over Nat. -/
def required_chunk_count_spec (total ppf : Nat) : Nat := (total + ppf - 1) / ppf

/-- Modelled from the spec (section 4.1): resolve the output filename by
removing every occurrence of each illegal character in turn, trimming
surrounding whitespace, then appending ".pdf". -/
def resolve_filename_spec (s : String) : String :=
  String.mk (py_strip
    (List.foldl (fun acc c => acc.filter (fun x => !(x == c))) s.data invalid_chars))
    ++ ".pdf"

/-! Arithmetic facts about the chunk count. -/

lemma total_steps_eq (a b : Nat) (hb : 0 < b) :
    total_steps a b = required_chunk_count_spec a b := by
  obtain ⟨q, r, hr, rfl⟩ : ∃ q r, r < b ∧ a = b * q + r :=
    ⟨a / b, a % b, Nat.mod_lt _ hb, (Nat.div_add_mod a b).symm⟩
  unfold total_steps required_chunk_count_spec
  have hdiv : (b * q + r) / b = q := by
    rw [Nat.mul_add_div hb, Nat.div_eq_of_lt hr, Nat.add_zero]
  have hmod : (b * q + r) % b = r := by
    rw [Nat.mul_add_mod, Nat.mod_eq_of_lt hr]
  rw [hdiv, hmod]
  by_cases h0 : r = 0
  · subst h0
    rw [if_neg (by simp)]
    have h1 : b * q + 0 + b - 1 = b * q + (b - 1) := by omega
    rw [h1, Nat.mul_add_div hb, Nat.div_eq_of_lt (by omega)]
  · rw [if_pos h0]
    have h1 : b * q + r + b - 1 = b * (q + 1) + (r - 1) := by
      rw [Nat.mul_add, Nat.mul_one]; omega
    rw [h1, Nat.mul_add_div hb, Nat.div_eq_of_lt (by omega)]

lemma le_total_steps_mul (a b : Nat) (hb : 0 < b) : a ≤ total_steps a b * b := by
  rw [total_steps_eq a b hb]
  unfold required_chunk_count_spec
  have key := Nat.div_add_mod (a + b - 1) b
  have hm : (a + b - 1) % b < b := Nat.mod_lt _ hb
  rw [Nat.mul_comm]
  generalize (a + b - 1) / b = s at key ⊢
  generalize (a + b - 1) % b = m at key hm
  generalize hbs : b * s = p at key ⊢
  omega

lemma total_steps_pos (a b : Nat) (hb : 0 < b) (ha : 1 ≤ a) : 0 < total_steps a b := by
  have h2 := le_total_steps_mul a b hb
  rcases Nat.eq_zero_or_pos (total_steps a b) with h0 | h0
  · rw [h0, Nat.zero_mul] at h2; omega
  · exact h0

/-! Joining the chunks recovers a prefix of the page list. -/

lemma join_chunks {α : Type} (l : List α) (b : Nat) (n : Nat) :
    ((List.range n).map (fun c => (l.drop (c * b)).take b)).flatten = l.take (n * b) := by
  induction n with
  | zero => simp
  | succ n ih =>
    rw [List.range_succ, List.map_append, List.flatten_append, ih]
    simp only [List.map_cons, List.map_nil, List.flatten_cons, List.flatten_nil,
      List.append_nil]
    rw [← List.take_add]
    congr 1
    rw [Nat.succ_mul]

/-! Lemmas about py_strip. -/

lemma dropWhile_self {α : Type} (p : α → Bool) (l : List α) :
    (l.dropWhile p).dropWhile p = l.dropWhile p := by
  induction l with
  | nil => rfl
  | cons a t ih => cases h : p a <;> simp [List.dropWhile_cons, h, ih]

lemma prefix_dropWhile_eq {α : Type} (p : α → Bool) {m l : List α}
    (hp : m <+: l) (hl : l.dropWhile p = l) : m.dropWhile p = m := by
  cases m with
  | nil => rfl
  | cons a m₁ =>
    obtain ⟨t, rfl⟩ := hp
    rw [List.cons_append, List.dropWhile_cons] at hl
    by_cases h : p a = true
    · rw [if_pos h] at hl
      have hlen := congrArg List.length hl
      have hle : (List.dropWhile p (m₁ ++ t)).length ≤ (m₁ ++ t).length :=
        (List.dropWhile_sublist p).length_le
      simp only [List.length_cons] at hlen
      omega
    · rw [List.dropWhile_cons, if_neg h]

lemma mem_py_strip {c : Char} {l : List Char} (h : c ∈ py_strip l) : c ∈ l := by
  unfold py_strip at h
  rw [List.mem_reverse] at h
  have h1 := (List.dropWhile_sublist py_space).subset h
  rw [List.mem_reverse] at h1
  exact (List.dropWhile_sublist py_space).subset h1

lemma py_strip_idem (l : List Char) : py_strip (py_strip l) = py_strip l := by
  have hpre : py_strip l <+: l.dropWhile py_space := by
    have h := List.reverse_prefix.mpr
      (List.dropWhile_suffix (l := (l.dropWhile py_space).reverse) py_space)
    rwa [List.reverse_reverse] at h
  have hv : (py_strip l).dropWhile py_space = py_strip l :=
    prefix_dropWhile_eq py_space hpre (dropWhile_self py_space l)
  conv_lhs => rw [py_strip, hv]
  rw [py_strip, List.reverse_reverse, dropWhile_self]

lemma filter_py_strip_filter (p : Char → Bool) (l : List Char) :
    (py_strip (l.filter p)).filter p = py_strip (l.filter p) := by
  rw [List.filter_eq_self]
  intro a ha
  exact List.of_mem_filter (mem_py_strip ha)

/-! Lemmas about the chunk loop. -/

lemma run_loop_no_cancel {α : Type} (pages : List α) (col : List Cell) (ppf : Nat)
    (cancel : Nat → Bool) (steps : Nat) (is : List Nat)
    (h : ∀ i ∈ is, cancel (i / ppf) = false) :
    run_loop pages col ppf cancel steps is =
      ⟨is.map (fun i => (sanitize_filename (cell_str (col.getD (i / ppf) none)) ++ ".pdf",
          (pages.drop i).take ppf)),
        is.map (fun i => (((i / ppf : Nat) : ℚ) + 1) / (steps : ℚ) * 100),
        .success⟩ := by
  induction is with
  | nil => rfl
  | cons i rest ih =>
    have hi : cancel (i / ppf) = false := h i (List.mem_cons_self i rest)
    have ih2 := ih (fun j hj => h j (List.mem_cons_of_mem i hj))
    simp only [run_loop, hi, Bool.false_eq_true, if_false, ih2, List.map_cons]

lemma run_loop_cancelled {α : Type} (pages : List α) (col : List Cell) (ppf : Nat)
    (cancel : Nat → Bool) (steps : Nat) (is₁ is₂ : List Nat) (i₀ : Nat)
    (h : ∀ i ∈ is₁, cancel (i / ppf) = false) (h0 : cancel (i₀ / ppf) = true) :
    run_loop pages col ppf cancel steps (is₁ ++ i₀ :: is₂) =
      ⟨is₁.map (fun i => (sanitize_filename (cell_str (col.getD (i / ppf) none)) ++ ".pdf",
          (pages.drop i).take ppf)),
        is₁.map (fun i => (((i / ppf : Nat) : ℚ) + 1) / (steps : ℚ) * 100),
        .cancelled⟩ := by
  induction is₁ with
  | nil => simp only [List.nil_append, run_loop, h0, if_true, List.map_nil]
  | cons i rest ih =>
    have hi : cancel (i / ppf) = false := h i (List.mem_cons_self i rest)
    have ih2 := ih (fun j hj => h j (List.mem_cons_of_mem i hj))
    simp only [List.cons_append, run_loop, hi, Bool.false_eq_true, if_false,
      List.append_eq, ih2, List.map_cons]

lemma run_loop_success_no_cancel {α : Type} (pages : List α) (col : List Cell) (ppf : Nat)
    (cancel : Nat → Bool) (steps : Nat) (is : List Nat)
    (hres : (run_loop pages col ppf cancel steps is).result = .success) :
    ∀ i ∈ is, cancel (i / ppf) = false := by
  induction is with
  | nil => intro j hj; exact absurd hj (List.not_mem_nil j)
  | cons i rest ih =>
    intro j hj
    by_cases hc : cancel (i / ppf) = true
    · exfalso
      simp only [run_loop, hc, if_true] at hres
      exact Outcome.noConfusion hres
    · have hc2 : cancel (i / ppf) = false := Bool.eq_false_iff.mpr hc
      simp only [run_loop, hc2, Bool.false_eq_true, if_false] at hres
      rcases List.mem_cons.mp hj with rfl | hj2
      · exact hc2
      · exact ih hres j hj2

/-- On a run whose result is success, dividir_pdf took the loop branch and no
cancellation poll fired, so the trace is the full list of chunk writes and
progress reports. -/
lemma dividir_pdf_success_eq {α : Type} (pages : List α) (col : List Cell) (ppf : Nat)
    (cancel : Nat → Bool)
    (hs : (dividir_pdf pages col ppf cancel).result = Outcome.success) :
    dividir_pdf pages col ppf cancel =
      ⟨(range_step pages.length ppf).map
          (fun i => (sanitize_filename (cell_str (col.getD (i / ppf) none)) ++ ".pdf",
            (pages.drop i).take ppf)),
        (range_step pages.length ppf).map
          (fun i => (((i / ppf : Nat) : ℚ) + 1) / ((total_steps pages.length ppf : Nat) : ℚ) * 100),
        Outcome.success⟩ := by
  by_cases hv : validate_excel_data col = false
  · exfalso
    unfold dividir_pdf at hs
    rw [if_pos hv] at hs
    exact Outcome.noConfusion hs
  · by_cases hn : col.length < total_steps pages.length ppf
    · exfalso
      unfold dividir_pdf at hs
      rw [if_neg hv, if_pos hn] at hs
      exact Outcome.noConfusion hs
    · have hrun : dividir_pdf pages col ppf cancel =
          run_loop pages col ppf cancel (total_steps pages.length ppf)
            (range_step pages.length ppf) := by
        unfold dividir_pdf
        rw [if_neg hv, if_neg hn]
      rw [hrun] at hs ⊢
      exact run_loop_no_cancel pages col ppf cancel (total_steps pages.length ppf)
        (range_step pages.length ppf)
        (run_loop_success_no_cancel pages col ppf cancel _ _ hs)

/-- Splitting the offset list at chunk position k, for k below the chunk count. -/
lemma range_step_split (total ppf k : Nat) (hk : k < total_steps total ppf) :
    ∃ tail : List Nat, range_step total ppf =
      ((List.range k).map (fun c => c * ppf)) ++ (k * ppf) :: tail := by
  obtain ⟨m, hm⟩ : ∃ m, total_steps total ppf = k + 1 + m :=
    ⟨total_steps total ppf - k - 1, by omega⟩
  refine ⟨(List.range m).map (fun j => (k + 1 + j) * ppf), ?_⟩
  unfold range_step
  rw [hm, List.range_add, List.range_succ]
  simp [List.map_append, List.map_map, List.append_assoc, Function.comp]

/-- Removing the occurrences of each character of cs in turn is the same as one
filter against membership in cs. -/
lemma foldl_filter_eq (cs : List Char) (l : List Char) :
    List.foldl (fun acc c => acc.filter (fun x => !(x == c))) l cs
      = l.filter (fun x => !(cs.contains x)) := by
  induction cs generalizing l with
  | nil => simp [List.contains]
  | cons c cs ih =>
    simp only [List.foldl_cons]
    rw [ih, List.filter_filter]
    congr 1
    funext x
    by_cases hxc : x = c
    · subst hxc
      simp [List.contains_cons]
    · simp [List.contains_cons, hxc, Bool.not_or, Bool.and_comm,
        beq_eq_false_iff_ne, Bool.not_false, Bool.and_true]

/-- C2: for every totalPages and positive pagesPerFile, the chunk count the code
computes at line 89 (used for the name check, the loop and the progress
denominator) is the ceiling of totalPages / pagesPerFile, the loop visits
exactly that many offsets, and for 10 pages in blocks of 3 it is 4 with chunk
sizes 3, 3, 3, 1. -/
theorem C2_chunk_count (total ppf : Nat) (hp : 0 < ppf) :
    total_steps total ppf = required_chunk_count_spec total ppf
      ∧ (range_step total ppf).length = total_steps total ppf
      ∧ total_steps 10 3 = 4
      ∧ (range_step 10 3).map (fun i => (((List.range 10).drop i).take 3).length)
          = [3, 3, 3, 1] := by
  refine ⟨total_steps_eq total ppf hp, ?_, by decide, by decide⟩
  unfold range_step
  rw [List.length_map, List.length_range]

theorem C2_chunk_count_witness :
    total_steps 10 3 = required_chunk_count_spec 10 3
      ∧ (range_step 10 3).length = total_steps 10 3
      ∧ total_steps 10 3 = 4
      ∧ (range_step 10 3).map (fun i => (((List.range 10).drop i).take 3).length)
          = [3, 3, 3, 1] :=
  C2_chunk_count 10 3 (by decide)

/-- C3: with a valid name list shorter than the required chunk count the run
stops with the insufficient-names error carrying both counts, and the trace
holds no written file and no progress report. -/
theorem C3_insufficient_names {α : Type} (pages : List α) (col : List Cell) (ppf : Nat)
    (cancel : Nat → Bool) (hp : 0 < ppf) (hv : validate_excel_data col = true)
    (hn : col.length < total_steps pages.length ppf) :
    dividir_pdf pages col ppf cancel =
      ⟨[], [], Outcome.insufficientNames col.length (total_steps pages.length ppf)⟩ := by
  unfold dividir_pdf
  rw [if_neg (by simp [hv]), if_pos hn]

theorem C3_insufficient_names_witness :
    dividir_pdf [0, 1, 2, 3] [some "A", some "B", some "C"] 1 (fun _ => false) =
      ⟨[], [], Outcome.insufficientNames 3
        (total_steps ([0, 1, 2, 3] : List Nat).length 1)⟩ :=
  C3_insufficient_names [0, 1, 2, 3] [some "A", some "B", some "C"] 1 (fun _ => false)
    (by decide) (by decide) (by decide)

/-- C4: an empty name source, or one with a missing first-column entry, fails
validation, and the run ends with the invalid-input outcome before any write or
progress report, whatever the document, block size and cancellation flag are. -/
theorem C4_invalid_input {α : Type} (pages : List α) (col : List Cell) (ppf : Nat)
    (cancel : Nat → Bool) (h : col = [] ∨ none ∈ col) :
    validate_excel_data col = false
      ∧ dividir_pdf pages col ppf cancel = ⟨[], [], Outcome.invalidInput⟩ := by
  have hv : validate_excel_data col = false := by
    rcases h with rfl | hmem
    · rfl
    · have hany : col.any (fun c => c.isNone) = true :=
        List.any_eq_true.mpr ⟨none, hmem, rfl⟩
      unfold validate_excel_data
      rw [hany]
      split <;> rfl
  refine ⟨hv, ?_⟩
  unfold dividir_pdf
  rw [if_pos hv]

theorem C4_invalid_input_witness :
    validate_excel_data [some "A", none, some "B"] = false
      ∧ dividir_pdf [5, 6] [some "A", none, some "B"] 3 (fun _ => false) =
          ⟨[], [], Outcome.invalidInput⟩ :=
  C4_invalid_input [5, 6] [some "A", none, some "B"] 3 (fun _ => false)
    (Or.inr (by decide))

/-- C5: the resolved output filename removes every occurrence of the nine
illegal characters, trims surrounding whitespace and appends ".pdf", exactly as
the spec words it; in particular "Report/Q1?" resolves to "ReportQ1.pdf". -/
theorem C5_filename_resolution :
    (∀ s : String, sanitize_filename s ++ ".pdf" = resolve_filename_spec s)
      ∧ sanitize_filename "Report/Q1?" ++ ".pdf" = "ReportQ1.pdf" := by
  constructor
  · intro s
    unfold sanitize_filename resolve_filename_spec
    rw [foldl_filter_eq]
  · decide

/-- C8: the pages-per-file field check of validar_campos accepts the string
"0", which int turns into 0, so the shell does not guarantee the splitter a
strictly positive pagesPerFile; with 0 the division at line 89 raises
ZeroDivisionError. -/
theorem C8_zero_accepted :
    validar_paginas_field "0" = true ∧ py_int "0" = 0 ∧ ¬ 0 < py_int "0" := by
  decide

/-- C9: an empty document with a valid nonempty name list splits successfully,
writing no file and reporting no progress. -/
theorem C9_empty_document {α : Type} (pages : List α) (col : List Cell) (ppf : Nat)
    (cancel : Nat → Bool) (hp : 0 < ppf) (h0 : pages.length = 0)
    (hv : validate_excel_data col = true) :
    dividir_pdf pages col ppf cancel = ⟨[], [], Outcome.success⟩ := by
  have hsteps : total_steps pages.length ppf = 0 := by
    rw [h0]
    unfold total_steps
    rw [Nat.zero_div, Nat.zero_mod]
    simp
  unfold dividir_pdf
  rw [if_neg (by simp [hv]), if_neg (by omega)]
  unfold range_step
  rw [hsteps]
  rfl

theorem C9_empty_document_witness :
    dividir_pdf ([] : List Nat) [some "A"] 2 (fun _ => false) =
      ⟨[], [], Outcome.success⟩ :=
  C9_empty_document ([] : List Nat) [some "A"] 2 (fun _ => false)
    (by decide) (by decide) (by decide)

/-- C10: sanitize_filename is idempotent. -/
theorem C10_sanitize_idempotent (s : String) :
    sanitize_filename (sanitize_filename s) = sanitize_filename s := by
  unfold sanitize_filename
  congr 1
  show py_strip ((py_strip (s.data.filter (fun c => !(invalid_chars.contains c)))).filter
      (fun c => !(invalid_chars.contains c)))
    = py_strip (s.data.filter (fun c => !(invalid_chars.contains c)))
  rw [filter_py_strip_filter, py_strip_idem]

/-- C1: on a successful run with positive pagesPerFile, chunk c holds exactly
the pages [c * ppf, min((c+1) * ppf, totalPages)) in order, and concatenating
the chunk page sequences in chunk order reproduces the document exactly. -/
theorem C1_round_trip {α : Type} (pages : List α) (col : List Cell) (ppf : Nat)
    (cancel : Nat → Bool) (hp : 0 < ppf) (h1 : 1 ≤ pages.length)
    (hs : (dividir_pdf pages col ppf cancel).result = Outcome.success) :
    (dividir_pdf pages col ppf cancel).files.map Prod.snd
        = (List.range (total_steps pages.length ppf)).map
            (fun c => (pages.drop (c * ppf)).take ppf)
      ∧ ((dividir_pdf pages col ppf cancel).files.map Prod.snd).flatten = pages := by
  rw [dividir_pdf_success_eq pages col ppf cancel hs]
  have hmap : ((range_step pages.length ppf).map
        (fun i => (sanitize_filename (cell_str (col.getD (i / ppf) none)) ++ ".pdf",
          (pages.drop i).take ppf))).map Prod.snd
      = (List.range (total_steps pages.length ppf)).map
          (fun c => (pages.drop (c * ppf)).take ppf) := by
    unfold range_step
    rw [List.map_map, List.map_map]
    rfl
  refine ⟨hmap, ?_⟩
  rw [hmap, join_chunks]
  exact List.take_of_length_le (le_total_steps_mul pages.length ppf hp)

theorem C1_round_trip_witness :
    (dividir_pdf [10, 20, 30, 40] [some "A", some "B"] 2 (fun _ => false)).files.map Prod.snd
        = (List.range (total_steps ([10, 20, 30, 40] : List Nat).length 2)).map
            (fun c => (([10, 20, 30, 40] : List Nat).drop (c * 2)).take 2)
      ∧ ((dividir_pdf [10, 20, 30, 40] [some "A", some "B"] 2
            (fun _ => false)).files.map Prod.snd).flatten = [10, 20, 30, 40] :=
  C1_round_trip [10, 20, 30, 40] [some "A", some "B"] 2 (fun _ => false)
    (by decide) (by decide) (by decide)

/-- C6: when the cancellation flag becomes set once k chunks have completed,
with k below the required chunk count, the run stops at the next chunk
boundary: exactly the first k files stand written, the outcome is the
cancellation path, and the shell shows no error message for it. -/
theorem C6_cancellation {α : Type} (pages : List α) (col : List Cell) (ppf k : Nat)
    (hp : 0 < ppf) (hv : validate_excel_data col = true)
    (hn : ¬ col.length < total_steps pages.length ppf)
    (hk : k < total_steps pages.length ppf) :
    (dividir_pdf pages col ppf (fun c => decide (k ≤ c))).result = Outcome.cancelled
      ∧ (dividir_pdf pages col ppf (fun c => decide (k ≤ c))).files.length = k
      ∧ (dividir_pdf pages col ppf (fun c => decide (k ≤ c))).files
          = (List.range k).map (fun c =>
              (sanitize_filename (cell_str (col.getD c none)) ++ ".pdf",
                (pages.drop (c * ppf)).take ppf))
      ∧ final_message
          (returned_bool (dividir_pdf pages col ppf (fun c => decide (k ≤ c))).result) true
          ≠ some "Ocorreu um erro durante o processamento." := by
  have hrun : dividir_pdf pages col ppf (fun c => decide (k ≤ c)) =
      run_loop pages col ppf (fun c => decide (k ≤ c)) (total_steps pages.length ppf)
        (range_step pages.length ppf) := by
    unfold dividir_pdf
    rw [if_neg (by simp [hv]), if_neg hn]
  obtain ⟨tail, hsplit⟩ := range_step_split pages.length ppf k hk
  have hcanc := run_loop_cancelled pages col ppf (fun c => decide (k ≤ c))
    (total_steps pages.length ppf) ((List.range k).map (fun c => c * ppf)) tail (k * ppf)
    (by
      intro i hi
      obtain ⟨c, hc, rfl⟩ := List.mem_map.mp hi
      rw [Nat.mul_div_cancel c hp]
      have hck : c < k := List.mem_range.mp hc
      exact decide_eq_false (by omega))
    (by
      rw [Nat.mul_div_cancel k hp]
      exact decide_eq_true (le_refl k))
  rw [hrun, hsplit, hcanc]
  refine ⟨rfl, ?_, ?_, ?_⟩
  · rw [List.length_map, List.length_map, List.length_range]
  · rw [List.map_map]
    apply List.map_congr_left
    intro c hc
    simp only [Function.comp_apply]
    rw [Nat.mul_div_cancel c hp]
  · simp [final_message, returned_bool]

theorem C6_cancellation_witness :
    (dividir_pdf [0, 1, 2, 3] [some "A", some "B", some "C", some "D"] 1
        (fun c => decide (2 ≤ c))).result = Outcome.cancelled
      ∧ (dividir_pdf [0, 1, 2, 3] [some "A", some "B", some "C", some "D"] 1
          (fun c => decide (2 ≤ c))).files.length = 2
      ∧ (dividir_pdf [0, 1, 2, 3] [some "A", some "B", some "C", some "D"] 1
          (fun c => decide (2 ≤ c))).files
          = (List.range 2).map (fun c =>
              (sanitize_filename
                  (cell_str (([some "A", some "B", some "C", some "D"] : List Cell).getD c none))
                  ++ ".pdf",
                (([0, 1, 2, 3] : List Nat).drop (c * 1)).take 1))
      ∧ final_message
          (returned_bool (dividir_pdf [0, 1, 2, 3]
            [some "A", some "B", some "C", some "D"] 1 (fun c => decide (2 ≤ c))).result) true
          ≠ some "Ocorreu um erro durante o processamento." :=
  C6_cancellation [0, 1, 2, 3] [some "A", some "B", some "C", some "D"] 1 2
    (by decide) (by decide) (by decide) (by decide)

/-- C7 fails as stated for a zero-page document: the run succeeds while the
progress sequence is empty, so it does not end at 100. -/
theorem C7_counterexample :
    (dividir_pdf ([] : List Nat) [some "A"] 1 (fun _ => false)).result = Outcome.success
      ∧ (dividir_pdf ([] : List Nat) [some "A"] 1
          (fun _ => false)).progress.getLast? ≠ some 100 := by
  decide

/-- Mapping the per-chunk progress expression over the multiples of b recovers
the chunk-indexed expression. -/
lemma map_div_mul_progress (b : Nat) (hb : 0 < b) (n : Nat) (s : ℚ) :
    ((List.range n).map (fun k => k * b)).map
        (fun i => (((i / b : Nat) : ℚ) + 1) / s * 100)
      = (List.range n).map (fun (c : Nat) => ((c : ℚ) + 1) / s * 100) := by
  rw [List.map_map]
  apply List.map_congr_left
  intro c hc
  simp only [Function.comp_apply]
  rw [Nat.mul_div_cancel c hb]

/-- Whatever the cancellation flag does, the progress values the loop reports
are those of an initial segment of the offsets it was given. -/
lemma run_loop_progress_prefix {α : Type} (pages : List α) (col : List Cell) (ppf : Nat)
    (cancel : Nat → Bool) (steps : Nat) (is : List Nat) :
    ∃ is₁ : List Nat, is₁ <+: is ∧
      (run_loop pages col ppf cancel steps is).progress
        = is₁.map (fun i => (((i / ppf : Nat) : ℚ) + 1) / (steps : ℚ) * 100) := by
  induction is with
  | nil => exact ⟨[], List.prefix_refl [], rfl⟩
  | cons i rest ih =>
    by_cases hc : cancel (i / ppf) = true
    · refine ⟨[], List.nil_prefix, ?_⟩
      simp only [run_loop, hc, if_true, List.map_nil]
    · obtain ⟨is₁, hpre, hprog⟩ := ih
      have hc2 : cancel (i / ppf) = false := Bool.eq_false_iff.mpr hc
      obtain ⟨t, ht⟩ := hpre
      refine ⟨i :: is₁, ⟨t, by rw [List.cons_append, ht]⟩, ?_⟩
      simp only [run_loop, hc2, Bool.false_eq_true, if_false, List.map_cons, hprog]

/-- C7 amended: on every run with positive pagesPerFile the reported progress
values are the first m values of (c+1)/requiredChunkCount*100 over chunk
indices c = 0, 1, ... for some m at most the chunk count, so the value
reported after chunk i equals (i+1)/requiredChunkCount*100 and the sequence
is strictly increasing; on a successful run of a document with at least one
page it ends at exactly 100 (a zero-page success reports no values). -/
theorem C7_progress {α : Type} (pages : List α) (col : List Cell) (ppf : Nat)
    (cancel : Nat → Bool) (hp : 0 < ppf) :
    (∃ m, m ≤ total_steps pages.length ppf
        ∧ (dividir_pdf pages col ppf cancel).progress
            = (List.range m).map
                (fun (c : Nat) =>
                  ((c : ℚ) + 1) / ((total_steps pages.length ppf : Nat) : ℚ) * 100))
      ∧ List.Pairwise (· < ·) (dividir_pdf pages col ppf cancel).progress
      ∧ ((dividir_pdf pages col ppf cancel).result = Outcome.success →
          1 ≤ pages.length →
          (dividir_pdf pages col ppf cancel).progress.getLast? = some 100) := by
  have hex : ∃ m, m ≤ total_steps pages.length ppf
      ∧ (dividir_pdf pages col ppf cancel).progress
          = (List.range m).map
              (fun (c : Nat) =>
                ((c : ℚ) + 1) / ((total_steps pages.length ppf : Nat) : ℚ) * 100) := by
    by_cases hv : validate_excel_data col = false
    · have htr : dividir_pdf pages col ppf cancel = ⟨[], [], Outcome.invalidInput⟩ := by
        unfold dividir_pdf
        rw [if_pos hv]
      exact ⟨0, Nat.zero_le _, by rw [htr]; rfl⟩
    · by_cases hn : col.length < total_steps pages.length ppf
      · have htr : dividir_pdf pages col ppf cancel =
            ⟨[], [], Outcome.insufficientNames col.length (total_steps pages.length ppf)⟩ := by
          unfold dividir_pdf
          rw [if_neg hv, if_pos hn]
        exact ⟨0, Nat.zero_le _, by rw [htr]; rfl⟩
      · have hrun : dividir_pdf pages col ppf cancel =
            run_loop pages col ppf cancel (total_steps pages.length ppf)
              (range_step pages.length ppf) := by
          unfold dividir_pdf
          rw [if_neg hv, if_neg hn]
        obtain ⟨is₁, hpre, hprog⟩ := run_loop_progress_prefix pages col ppf cancel
          (total_steps pages.length ppf) (range_step pages.length ppf)
        have htake : is₁ = (range_step pages.length ppf).take is₁.length :=
          List.prefix_iff_eq_take.mp hpre
        have h2 : is₁.map
              (fun i => (((i / ppf : Nat) : ℚ) + 1) /
                ((total_steps pages.length ppf : Nat) : ℚ) * 100)
            = (List.range (min is₁.length (total_steps pages.length ppf))).map
                (fun (c : Nat) =>
                  ((c : ℚ) + 1) / ((total_steps pages.length ppf : Nat) : ℚ) * 100) := by
          conv_lhs => rw [htake]
          unfold range_step
          rw [← List.map_take, List.take_range, map_div_mul_progress ppf hp]
        exact ⟨min is₁.length (total_steps pages.length ppf), Nat.min_le_right _ _,
          by rw [hrun, hprog, h2]⟩
  refine ⟨hex, ?_, ?_⟩
  · obtain ⟨m, hm, hprog⟩ := hex
    rw [hprog]
    rcases Nat.eq_zero_or_pos m with rfl | hmpos
    · simp
    · have hsteps : 0 < total_steps pages.length ppf := lt_of_lt_of_le hmpos hm
      have hsq : (0 : ℚ) < ((total_steps pages.length ppf : Nat) : ℚ) := by
        exact_mod_cast hsteps
      refine List.Pairwise.map _ ?_ (List.pairwise_lt_range m)
      intro a b hab
      apply mul_lt_mul_of_pos_right _ (by norm_num : (0 : ℚ) < 100)
      apply (div_lt_div_iff_of_pos_right hsq).mpr
      exact_mod_cast Nat.add_lt_add_right hab 1
  · intro hs h1
    have hsteps : 0 < total_steps pages.length ppf := total_steps_pos pages.length ppf hp h1
    have hsq : (0 : ℚ) < ((total_steps pages.length ppf : Nat) : ℚ) := by
      exact_mod_cast hsteps
    rw [dividir_pdf_success_eq pages col ppf cancel hs]
    show ((range_step pages.length ppf).map
        (fun i => (((i / ppf : Nat) : ℚ) + 1) /
          ((total_steps pages.length ppf : Nat) : ℚ) * 100)).getLast? = some 100
    unfold range_step
    rw [map_div_mul_progress ppf hp, List.getLast?_map]
    have hr : List.range (total_steps pages.length ppf)
        = List.range (total_steps pages.length ppf - 1) ++ [total_steps pages.length ppf - 1] := by
      conv_lhs => rw [show total_steps pages.length ppf
        = (total_steps pages.length ppf - 1) + 1 by omega]
      exact List.range_succ (total_steps pages.length ppf - 1)
    rw [hr, List.getLast?_concat, Option.map_some']
    have hcast : (((total_steps pages.length ppf - 1 : Nat) : ℚ) + 1)
        = ((total_steps pages.length ppf : Nat) : ℚ) := by
      rw [Nat.cast_sub hsteps]
      ring
    rw [hcast, div_self (ne_of_gt hsq), one_mul]

theorem C7_progress_witness :
    (∃ m, m ≤ total_steps ([10, 20, 30, 40] : List Nat).length 1
        ∧ (dividir_pdf [10, 20, 30, 40] [some "A", some "B", some "C", some "D"] 1
            (fun c => decide (3 ≤ c))).progress
            = (List.range m).map
                (fun (c : Nat) =>
                  ((c : ℚ) + 1) /
                    ((total_steps ([10, 20, 30, 40] : List Nat).length 1 : Nat) : ℚ) * 100))
      ∧ List.Pairwise (· < ·)
          (dividir_pdf [10, 20, 30, 40] [some "A", some "B", some "C", some "D"] 1
            (fun c => decide (3 ≤ c))).progress
      ∧ ((dividir_pdf [10, 20, 30, 40] [some "A", some "B", some "C", some "D"] 1
            (fun c => decide (3 ≤ c))).result = Outcome.success →
          1 ≤ ([10, 20, 30, 40] : List Nat).length →
          (dividir_pdf [10, 20, 30, 40] [some "A", some "B", some "C", some "D"] 1
            (fun c => decide (3 ≤ c))).progress.getLast? = some 100) :=
  C7_progress [10, 20, 30, 40] [some "A", some "B", some "C", some "D"] 1
    (fun c => decide (3 ≤ c)) (by decide)

end PDFSplitterModel
